import Mathlib

/-!
Verification of the DHCP IPAM daemon of the cni-plugins repository.

The Go sources are shallowly embedded:
* byte strings (`Go []byte` / `string` contents) are `List Nat`;
* `time.Time` / `time.Duration` values are `Int` ticks;
* the in-memory registry `map[string]*DHCPLease` is an association list
  with unique keys, mutated in place;
* the lease file is a `LeaseFile` value: `missing` models a read error,
  `corrupt` a byte sequence `json.Unmarshal` rejects, and `records rs`
  a well-formed file holding the record sequence `rs` (marshalling of
  the record list by `encoding/json` is assumed faithful);
* effects of external collaborators (netlink link lookup, namespace
  entry, the kubernetes API, socket I/O, file writes) are parameters:
  an environment record or a boolean outcome for each call site;
* the daemon's mutex/stop discipline is additionally embedded as event
  traces: each operation's straight-line sequence of lock, mutate,
  persist, unlock and stop actions, read off the function bodies.
-/

namespace CniDhcp

/-- Byte strings: Go `[]byte` and the byte content of Go `string`s. -/
abbrev Bytes := List Nat

/-- A resolved netlink link handle; only its name is observable here
(`v.link.Attrs().Name` in `PersistActiveLeases`). -/
structure Link where
  name : String
deriving DecidableEq, Repr

/-- The in-memory `DHCPLease`, restricted to the fields the daemon and the
persistence layer read or write (`persist.go` and the daemon file). The
`stop` channel is the lifecycle signal and carries no data; it is omitted. -/
structure DHCPLease where
  clientID : String
  /-- Field `ack *dhcp4.Packet`: `none` models a nil pointer. -/
  ack : Option Bytes
  link : Link
  renewalTime : Int
  rebindingTime : Int
  expireTime : Int
  timeout : Int
  resendMax : Int
  broadcast : Bool
  k8sNamespace : String
  k8sPodName : String
  netNs : String
deriving DecidableEq, Repr

/-- Structure `PersistedLeased` of `plugins/ipam/dhcp/persist.go`: the durable
fields of a lease. -/
structure PersistedLeased where
  ClientID : String
  Ack : Option Bytes
  LinkName : String
  RenewalTime : Int
  RebindingTime : Int
  ExpireTime : Int
  K8sNamespace : String
  K8sPodName : String
  NetNs : String
deriving DecidableEq, Repr

/-- The lease file as `LoadSavedLeases` can observe it. -/
inductive LeaseFile where
  /-- `ioutil.ReadFile` fails. -/
  | missing : LeaseFile
  /-- the file exists but `json.Unmarshal` rejects it. -/
  | corrupt : LeaseFile
  /-- a well-formed file holding exactly these records. -/
  | records : List PersistedLeased → LeaseFile
deriving DecidableEq, Repr

/-! ## The registry: `map[string]*DHCPLease` as an association list -/

/-- Go map assignment `m[k] = v`: replace the binding if present,
otherwise add it. -/
def upsert (m : List (String × DHCPLease)) (k : String) (v : DHCPLease) :
    List (String × DHCPLease) :=
  match m with
  | [] => [(k, v)]
  | (k', v') :: rest => if k' = k then (k, v) :: rest else (k', v') :: upsert rest k v

/-- Go `delete(m, k)`. -/
def eraseKey (m : List (String × DHCPLease)) (k : String) :
    List (String × DHCPLease) :=
  m.filter (fun kv => kv.1 ≠ k)

/-- Go map read `m[k]`. -/
def lookupLease (m : List (String × DHCPLease)) (k : String) : Option DHCPLease :=
  match m with
  | [] => none
  | (k', v') :: rest => if k' = k then some v' else lookupLease rest k

/-! ## Persistence (`plugins/ipam/dhcp/persist.go`) -/

/-- The record built for one lease in the loop of `PersistActiveLeases`. -/
def persistRecord (v : DHCPLease) : PersistedLeased :=
  { ClientID := v.clientID
    Ack := v.ack
    LinkName := v.link.name
    RenewalTime := v.renewalTime
    RebindingTime := v.rebindingTime
    ExpireTime := v.expireTime
    K8sNamespace := v.k8sNamespace
    K8sPodName := v.k8sPodName
    NetNs := v.netNs }

/-- The record sequence `PersistActiveLeases` marshals: one record per
registry entry, in registry order. -/
def persistSnapshot (m : List (String × DHCPLease)) : List PersistedLeased :=
  m.map (fun kv => persistRecord kv.2)

/-- Function `PersistActiveLeases(fileName, leases)`. `json.Marshal` of a list of
`PersistedLeased` records cannot fail, so the only fallible step is
`ioutil.WriteFile`, whose outcome is the parameter `writeOk`. A write
failure is only logged (`log.Printf`) and the function returns `nil`:
the returned error is `none` in both cases. On a failed write the old
file contents remain. -/
def PersistActiveLeases (writeOk : Bool) (m : List (String × DHCPLease))
    (file : LeaseFile) : LeaseFile × Option String :=
  (if writeOk then LeaseFile.records (persistSnapshot m) else file, none)

/-- The runtime environment `LoadSavedLeases` consults per record:
whether a namespace path exists (`ns.WithNetNSPath` returning
`NSPathNotExistErr`) and what `netlink.LinkByName` resolves inside it. -/
structure NetEnv where
  nsExists : String → Bool
  linkByName : String → String → Option Link

/-- The lease rebuilt from one persisted record (the `myLease` literal in
`LoadSavedLeases`), before the link is resolved; `link` is filled by the
namespace closure. -/
def reloadLease (timeout resendMax : Int) (broadcast : Bool)
    (r : PersistedLeased) (link : Link) : DHCPLease :=
  { clientID := r.ClientID
    ack := r.Ack
    link := link
    renewalTime := r.RenewalTime
    rebindingTime := r.RebindingTime
    expireTime := r.ExpireTime
    timeout := timeout
    resendMax := resendMax
    broadcast := broadcast
    k8sNamespace := r.K8sNamespace
    k8sPodName := r.K8sPodName
    netNs := r.NetNs }

/-- The record loop of `LoadSavedLeases`: a missing namespace is skipped
by `continue`; a namespace that exists but whose link cannot be found
makes the whole function `return nil, fmt.Errorf(...)`. -/
def loadRecords (env : NetEnv) (timeout resendMax : Int) (broadcast : Bool) :
    List PersistedLeased → Except String (List DHCPLease)
  | [] => Except.ok []
  | r :: rest =>
    if env.nsExists r.NetNs then
      match env.linkByName r.NetNs r.LinkName with
      | none => Except.error ("couldn't look up link " ++ r.LinkName)
      | some link =>
        match loadRecords env timeout resendMax broadcast rest with
        | Except.error e => Except.error e
        | Except.ok ls => Except.ok (reloadLease timeout resendMax broadcast r link :: ls)
    else
      loadRecords env timeout resendMax broadcast rest

/-- Function `LoadSavedLeases(leaseFile, timeout, resendMax, broadcast)`. A read
failure is returned as an error; a parse failure is assigned to `err`
but never checked, so the loop runs over an empty slice and the function
returns `(nil, nil)`: an empty lease list and no error. -/
def LoadSavedLeases (env : NetEnv) (file : LeaseFile)
    (timeout resendMax : Int) (broadcast : Bool) :
    Except String (List DHCPLease) :=
  match file with
  | LeaseFile.missing => Except.error "read error"
  | LeaseFile.corrupt => Except.ok []
  | LeaseFile.records rs => loadRecords env timeout resendMax broadcast rs

/-! ## The daemon (registry operations and RPC handlers) -/

/-- Daemon state visible to the claims: the guarded registry and the
lease file. -/
structure DHCPState where
  leases : List (String × DHCPLease)
  file : LeaseFile
deriving DecidableEq, Repr

/-- Function `DHCP.setLease`: lock, assign into the map, unlock. No persistence
happens inside this function. -/
def setLease (d : DHCPState) (clientID : String) (l : DHCPLease) : DHCPState :=
  { d with leases := upsert d.leases clientID l }

/-- Function `DHCP.getLease`: lock, read the map, unlock. -/
def getLease (d : DHCPState) (clientID : String) : Option DHCPLease :=
  lookupLease d.leases clientID

/-- Function `DHCP.clearLease`: lock, `delete` the key, call `PersistActiveLeases`
(still under the mutex; its error is only logged), unlock. -/
def clearLease (writeOk : Bool) (d : DHCPState) (clientID : String) : DHCPState :=
  let d' := { d with leases := eraseKey d.leases clientID }
  ((PersistActiveLeases writeOk d'.leases d'.file).1 |> fun f => { d' with file := f })

/-- Function `DHCP.Allocate`. Fallible steps before the registry mutation are
outcome parameters: `parseOk` (`json.Unmarshal` of the netconf),
`argsOk` (`types.LoadArgs`), `optsOk` (`prepareOptions`), `acq`
(`AcquireLease`, returning the lease or failing), `ipnOk` (`l.IPNet()`).
On success the lease is inserted with `setLease` and
`PersistActiveLeases` is called after `setLease` has returned; its
error (always `nil`, see `PersistActiveLeases`) is checked and would be
returned. Returns the new state and the RPC error payload. -/
def Allocate (parseOk argsOk optsOk : Bool) (acq : Option DHCPLease)
    (ipnOk writeOk : Bool) (clientID : String) (d : DHCPState) :
    DHCPState × Option String :=
  if ¬parseOk then (d, some "error parsing netconf")
  else if ¬argsOk then (d, some "failed to parse args")
  else if ¬optsOk then (d, some "prepareOptions failed")
  else
    match acq with
    | none => (d, some "AcquireLease failed")
    | some l =>
      if ¬ipnOk then (d, some "IPNet failed")
      else
        let d1 := setLease d clientID l
        match PersistActiveLeases writeOk d1.leases d1.file with
        | (f, some e) => ({ d1 with file := f }, some e)
        | (f, none) => ({ d1 with file := f }, none)

/-- Function `DHCP.Release`: parse the netconf, compute the client id, and if
`getLease` finds a lease, `Stop()` it and `clearLease` it; otherwise do
nothing. Returns `nil` on both paths. -/
def Release (parseOk : Bool) (writeOk : Bool) (clientID : String)
    (d : DHCPState) : DHCPState × Option String :=
  if ¬parseOk then (d, some "error parsing netconf")
  else
    match getLease d clientID with
    | none => (d, none)
    | some _ => (clearLease writeOk d clientID, none)

/-! ## Event traces of the daemon operations

Each operation's straight-line action sequence, read off the Go bodies:
`lock`/`unlock` are the daemon mutex, `insert`/`erase` the map
mutations, `persist` a call to `PersistActiveLeases`, `stop` a
`l.Stop()` call. -/

inductive Ev where
  | lock : Ev
  | unlock : Ev
  | insert : String → Ev
  | erase : String → Ev
  | persist : Ev
  | stop : String → Ev
  | acquire : String → Ev
deriving DecidableEq, Repr, BEq

/-- Trace of the `setLease` body: `d.mux.Lock(); d.leases[clientID] = l; d.mux.Unlock()`. -/
def setLeaseTrace (clientID : String) : List Ev :=
  [Ev.lock, Ev.insert clientID, Ev.unlock]

/-- Trace of the `clearLease` body: lock, `delete`, `PersistActiveLeases`, unlock
(the persist call sits before the deferred unlock). -/
def clearLeaseTrace (clientID : String) : List Ev :=
  [Ev.lock, Ev.erase clientID, Ev.persist, Ev.unlock]

/-- Trace of the `getLease` body: lock, read, unlock. -/
def getLeaseTrace : List Ev :=
  [Ev.lock, Ev.unlock]

/-- Trace of `Allocate` on its success path: `AcquireLease`, then `setLease`,
then `PersistActiveLeases` — the persist call happens after `setLease`
has returned, i.e. after the mutex is back down. -/
def allocateTraceSuccess (clientID : String) : List Ev :=
  Ev.acquire clientID :: setLeaseTrace clientID ++ [Ev.persist]

/-- Trace of `Release`: `getLease`, and when a lease was found, `l.Stop()`
followed by `clearLease`. -/
def ReleaseTrace (found : Bool) (clientID : String) : List Ev :=
  getLeaseTrace ++ (if found then Ev.stop clientID :: clearLeaseTrace clientID else [])

/-- Does every registry mutation in the trace have a `persist` between
it and the next `unlock` (i.e. before the mutex protecting it is
released)? -/
def persistBeforeUnlock : List Ev → Bool
  | [] => true
  | Ev.insert _ :: rest =>
    (rest.takeWhile (fun e => e ≠ Ev.unlock)).contains Ev.persist && persistBeforeUnlock rest
  | Ev.erase _ :: rest =>
    (rest.takeWhile (fun e => e ≠ Ev.unlock)).contains Ev.persist && persistBeforeUnlock rest
  | _ :: rest => persistBeforeUnlock rest

/-- Annotate each event with whether the mutex is held at the moment it
happens (`lock` itself is annotated with the state before it, `unlock`
with the state before it). -/
def annotate : Bool → List Ev → List (Ev × Bool)
  | _, [] => []
  | h, Ev.lock :: rest => (Ev.lock, h) :: annotate true rest
  | h, Ev.unlock :: rest => (Ev.unlock, h) :: annotate false rest
  | h, e :: rest => (e, h) :: annotate h rest

/-- The file holds exactly the records of the in-memory registry. -/
def fileReflects (d : DHCPState) : Prop :=
  d.file = LeaseFile.records (persistSnapshot d.leases)

/-! ## Client id generation (`generateClientID` in the daemon file) -/

/-- Function `generateClientID(containerID, netName, ifName)`: concatenate
with `/` separators (byte 47) and truncate to the first 254 bytes when
longer. Go `len` and slicing act on bytes, hence the byte-list model. -/
def generateClientID (containerID netName ifName : Bytes) : Bytes :=
  let clientID := containerID ++ [47] ++ netName ++ [47] ++ ifName
  if clientID.length > 254 then clientID.take 254 else clientID

/-! ## Startup reconciliation (`newDHCP` in the daemon file) -/

/-- Outcome of the `k8s.Pods(ns).Get(...)` call for one lease. -/
inductive PodResult where
  | found : PodResult
  | notFound : PodResult
  | apiError : String → PodResult
deriving DecidableEq, Repr

/-- The reconciliation loop of `newDHCP` over the loaded leases: a lease
with a pod name consults the orchestrator — not-found drops it with
`continue`, any other API error aborts with that error; otherwise the
lease is inserted with `setLease` and `StartMaintaining` is called,
whose failure also aborts. `podGet` maps (namespace, pod name) to the
query outcome and `startOk` gives each lease's `StartMaintaining`
outcome. -/
def reconcile (podGet : String → String → PodResult)
    (startOk : DHCPLease → Bool) :
    List DHCPLease → List (String × DHCPLease) →
    Except String (List (String × DHCPLease))
  | [], acc => Except.ok acc
  | val :: rest, acc =>
    if val.k8sPodName ≠ "" then
      match podGet val.k8sNamespace val.k8sPodName with
      | PodResult.notFound => reconcile podGet startOk rest acc
      | PodResult.apiError e => Except.error e
      | PodResult.found =>
        let acc' := upsert acc val.clientID val
        if startOk val then reconcile podGet startOk rest acc'
        else Except.error "failed to start maintaining lease"
    else
      let acc' := upsert acc val.clientID val
      if startOk val then reconcile podGet startOk rest acc'
      else Except.error "failed to start maintaining lease"

/-! ## Packet assembly and exchange (the DHCP helpers file)

The helpers fold a Go `dhcp4.Options` map into an outbound packet with
`AddOption` and then `PadToMinSize`. A `dhcp4.Packet` is a byte slice
ending in the End option byte 255; `AddOption(o, v)` drops that final
byte, appends `o`, `len(v)`, `v`, and restores the End byte;
`PadToMinSize` zero-pads to the library's 272-byte minimum. Go iterates
a map in unspecified order, so the fold is over a `List (Nat × Bytes)`:
the dictionary's entries in one iteration order. -/

/-- Method `dhcp4.Packet.AddOption`. -/
def addOption (p : Bytes) (code : Nat) (value : Bytes) : Bytes :=
  p.dropLast ++ [code, value.length] ++ value ++ [255]

/-- Method `dhcp4.Packet.PadToMinSize` (minimum size 272 bytes). -/
def padToMinSize (p : Bytes) : Bytes :=
  if p.length < 272 then p ++ List.replicate (272 - p.length) 0 else p

/-- Packet assembly shared by `DhcpSendDiscoverPacket`, `DhcpSendRequest`
and the other senders: add every option of the dictionary (in the given
iteration order) to the base packet, then pad. -/
def assemble (base : Bytes) (opts : List (Nat × Bytes)) : Bytes :=
  padToMinSize (opts.foldl (fun p od => addOption p od.1 od.2) base)

/-- The `dhcp4client.Client` surface `DhcpRequest` touches. Packet
constructors and parse results are data; each fallible call carries its
outcome: `sendPacket` returns the error of sending a given packet,
`getOffer`/`getAcknowledgement` return the received packet and the
error, `parseMessageType` is `ParseOptions()[OptionDHCPMessageType][0]`
of a received packet. -/
structure Client where
  discoverPacket : Bytes
  requestPacket : Bytes → Bytes
  sendPacket : Bytes → Option String
  getOffer : Bytes → Bytes × Option String
  getAcknowledgement : Bytes → Bytes × Option String
  parseMessageType : Bytes → Nat

/-- DHCP message type ACK (`dhcp4.ACK`). -/
def ACK : Nat := 5

/-- Function `DhcpSendDiscoverPacket`: build the discover packet from the
option dictionary and send it, returning the packet and the send error. -/
def DhcpSendDiscoverPacket (c : Client) (opts : List (Nat × Bytes)) :
    Bytes × Option String :=
  let p := assemble c.discoverPacket opts
  (p, c.sendPacket p)

/-- Function `DhcpSendRequest`: build the request packet from the offer and
the option dictionary and send it. -/
def DhcpSendRequest (c : Client) (opts : List (Nat × Bytes)) (offer : Bytes) :
    Bytes × Option String :=
  let p := assemble (c.requestPacket offer) opts
  (p, c.sendPacket p)

/-- Function `DhcpRequest`: the full Discover→Offer→Request→Ack exchange.
Every transport error returns `(false, packet-so-far, err)`; a reply
whose message type is not ACK returns `(false, ack, nil)`; an ACK reply
returns `(true, ack, nil)`. -/
def DhcpRequest (c : Client) (opts : List (Nat × Bytes)) :
    Bool × Bytes × Option String :=
  match DhcpSendDiscoverPacket c opts with
  | (dp, some e) => (false, dp, some e)
  | (dp, none) =>
    match c.getOffer dp with
    | (op, some e) => (false, op, some e)
    | (op, none) =>
      match DhcpSendRequest c opts op with
      | (rp, some e) => (false, rp, some e)
      | (rp, none) =>
        match c.getAcknowledgement rp with
        | (ack, some e) => (false, ack, some e)
        | (ack, none) =>
          if c.parseMessageType ack ≠ ACK then (false, ack, none)
          else (true, ack, none)

/-- The discovery packet `DhcpRequest` sends. -/
def discoveryOf (c : Client) (opts : List (Nat × Bytes)) : Bytes :=
  assemble c.discoverPacket opts

/-- The offer `DhcpRequest` receives (meaningful when no error occurred). -/
def offerOf (c : Client) (opts : List (Nat × Bytes)) : Bytes :=
  (c.getOffer (discoveryOf c opts)).1

/-- The request packet `DhcpRequest` sends. -/
def requestOf (c : Client) (opts : List (Nat × Bytes)) : Bytes :=
  assemble (c.requestPacket (offerOf c opts)) opts

/-- The acknowledgement `DhcpRequest` receives. -/
def ackOf (c : Client) (opts : List (Nat × Bytes)) : Bytes :=
  (c.getAcknowledgement (requestOf c opts)).1

/-- All four transport phases of `DhcpRequest` succeed. -/
def allPhasesOk (c : Client) (opts : List (Nat × Bytes)) : Bool :=
  (c.sendPacket (discoveryOf c opts)).isNone &&
  (c.getOffer (discoveryOf c opts)).2.isNone &&
  (c.sendPacket (requestOf c opts)).isNone &&
  (c.getAcknowledgement (requestOf c opts)).2.isNone

/-- The byte segment one option contributes to a packet: code, length,
value. -/
def optSeg (od : Nat × Bytes) : Bytes :=
  od.1 :: od.2.length :: od.2

/-- The order asserted by the specification for a found `Release`: the
registry removal comes first, then the `stop()` call, then the persist. -/
def removeThenStopThenPersist (tr : List Ev) (cid : String) : Bool :=
  decide (tr.indexOf (Ev.erase cid) < tr.indexOf (Ev.stop cid)) &&
  decide (tr.indexOf (Ev.stop cid) < tr.indexOf Ev.persist)

/-! ## Concrete sample data for instantiating theorems -/

/-- A concrete lease for instantiating theorems on concrete inputs. -/
def sampleLease : DHCPLease :=
  { clientID := "c1/net/eth0"
    ack := some [5]
    link := { name := "eth0" }
    renewalTime := 10
    rebindingTime := 20
    expireTime := 30
    timeout := 1
    resendMax := 2
    broadcast := false
    k8sNamespace := "default"
    k8sPodName := "pod1"
    netNs := "/var/run/netns/c1" }

/-- A concrete daemon state holding `sampleLease` under its client id. -/
def sampleState : DHCPState :=
  { leases := [("c1/net/eth0", sampleLease)], file := LeaseFile.records [] }

/-- A concrete environment resolving every namespace and exactly the
link named `eth0`. -/
def sampleEnv : NetEnv :=
  { nsExists := fun _ => true
    linkByName := fun _ name => if name = "eth0" then some { name := "eth0" } else none }

/-! # Theorems -/

/-- C9: `generateClientID(containerID, netName, ifName)` returns the
concatenation `containerID ++ "/" ++ netName ++ "/" ++ ifName`, truncated
to its first 254 bytes when the concatenation is longer (uniformly, the
result is the first 254 bytes of the concatenation); the result never
exceeds 254 bytes, and on short inputs it is the concatenation itself.
Determinism is immediate: the embedding is a function of the inputs. -/
theorem generateClientID_spec (a b c : Bytes) :
    generateClientID a b c = (a ++ [47] ++ b ++ [47] ++ c).take 254 ∧
    (generateClientID a b c).length ≤ 254 ∧
    ((a ++ [47] ++ b ++ [47] ++ c).length ≤ 254 →
      generateClientID a b c = a ++ [47] ++ b ++ [47] ++ c) := by
  have hx : generateClientID a b c =
      (if (a ++ [47] ++ b ++ [47] ++ c).length > 254
        then (a ++ [47] ++ b ++ [47] ++ c).take 254
        else a ++ [47] ++ b ++ [47] ++ c) := rfl
  rw [hx]
  by_cases h : (a ++ [47] ++ b ++ [47] ++ c).length > 254
  · rw [if_pos h]
    refine ⟨rfl, ?_, fun hle => absurd hle (by omega)⟩
    rw [List.length_take]
    exact Nat.min_le_left _ _
  · rw [if_neg h]
    push_neg at h
    exact ⟨(List.take_of_length_le h).symm, h, fun _ => rfl⟩

/-- Witness for C9 at a concrete short input. -/
theorem generateClientID_spec_witness :
    generateClientID [99] [110] [101] = [99] ++ [47] ++ [110] ++ [47] ++ [101] :=
  (generateClientID_spec [99] [110] [101]).2.2 (by decide)

/-- C10: a `Release` whose computed client id is absent from the registry
returns no error and leaves the registry and the lease file unchanged;
its trace is the `getLease` lock/unlock pair only — no `stop`, no map
mutation, no persist call. -/
theorem Release_absent_noop (d : DHCPState) (cid : String) (w : Bool)
    (h : lookupLease d.leases cid = none) :
    Release true w cid d = (d, none) ∧
    ReleaseTrace false cid = [Ev.lock, Ev.unlock] := by
  refine ⟨?_, rfl⟩
  simp [Release, getLease, h]

/-- Witness for C10: releasing an unknown id on the sample state. -/
theorem Release_absent_noop_witness :
    Release true true "absent" sampleState = (sampleState, none) ∧
    ReleaseTrace false "absent" = [Ev.lock, Ev.unlock] :=
  Release_absent_noop sampleState "absent" true (by decide)

/-- C4: persistence failures are invisible to RPC callers.
`PersistActiveLeases` returns no error when the file write fails, so
`Allocate` (which checks that error) and `Release` succeed even with a
failing lease file write; and a lease file that fails to parse makes
`LoadSavedLeases` return an empty lease list with no error. -/
theorem persistenceFailure_not_surfaced (env : NetEnv) (t r : Int) (b : Bool)
    (d : DHCPState) (cid : String) (l : DHCPLease)
    (m : List (String × DHCPLease)) (f : LeaseFile) :
    (PersistActiveLeases false m f).2 = none ∧
    (Allocate true true true (some l) true false cid d).2 = none ∧
    (Release true false cid d).2 = none ∧
    LoadSavedLeases env LeaseFile.corrupt t r b = Except.ok [] := by
  refine ⟨rfl, rfl, ?_, rfl⟩
  cases h : getLease d cid <;> simp [Release, h]

/-- C3: the startup reconciliation of `newDHCP`. For a loaded lease with
a workload identity: a not-found pod drops the lease (the accumulator is
untouched) and the loop continues; any other API error aborts with that
error; a found pod inserts the lease and starts its maintainer. A lease
without workload identity is inserted (and started) unconditionally. -/
theorem reconcile_spec (podGet : String → String → PodResult)
    (startOk : DHCPLease → Bool) (val : DHCPLease) (rest : List DHCPLease)
    (acc : List (String × DHCPLease)) (e : String) :
    (val.k8sPodName ≠ "" →
      podGet val.k8sNamespace val.k8sPodName = PodResult.notFound →
      reconcile podGet startOk (val :: rest) acc = reconcile podGet startOk rest acc) ∧
    (val.k8sPodName ≠ "" →
      podGet val.k8sNamespace val.k8sPodName = PodResult.apiError e →
      reconcile podGet startOk (val :: rest) acc = Except.error e) ∧
    (val.k8sPodName ≠ "" →
      podGet val.k8sNamespace val.k8sPodName = PodResult.found →
      startOk val = true →
      reconcile podGet startOk (val :: rest) acc =
        reconcile podGet startOk rest (upsert acc val.clientID val)) ∧
    (val.k8sPodName = "" → startOk val = true →
      reconcile podGet startOk (val :: rest) acc =
        reconcile podGet startOk rest (upsert acc val.clientID val)) := by
  refine ⟨fun h1 h2 => ?_, fun h1 h2 => ?_, fun h1 h2 h3 => ?_, fun h1 h2 => ?_⟩ <;>
    simp [reconcile, h1, h2, *]

/-- Witness for C3: a not-found pod is dropped and an identity-free lease
is inserted, on concrete inputs. -/
theorem reconcile_spec_witness :
    (reconcile (fun _ _ => PodResult.notFound) (fun _ => true) [sampleLease] [] =
      reconcile (fun _ _ => PodResult.notFound) (fun _ => true) [] []) ∧
    (reconcile (fun _ _ => PodResult.found) (fun _ => true)
        [{ sampleLease with k8sPodName := "" }] [] =
      reconcile (fun _ _ => PodResult.found) (fun _ => true) []
        (upsert [] ({ sampleLease with k8sPodName := "" }).clientID
          { sampleLease with k8sPodName := "" })) :=
  ⟨(reconcile_spec (fun _ _ => PodResult.notFound) (fun _ => true) sampleLease [] [] "").1
      (by decide) rfl,
   (reconcile_spec (fun _ _ => PodResult.found) (fun _ => true)
      { sampleLease with k8sPodName := "" } [] [] "").2.2.2 rfl rfl⟩

/-- C6: serializing a lease's persistable fields and loading the file
back yields an equivalent lease: client id, acknowledgement, the three
timers, workload namespace and name, and namespace path are preserved;
the link is re-resolved by its persisted name (to whatever the
environment returns for it), and the acquisition parameters come from
the daemon configuration. -/
theorem persist_load_roundTrip (env : NetEnv) (t r : Int) (b : Bool)
    (l : DHCPLease) (lnk : Link)
    (h1 : env.nsExists l.netNs = true)
    (h2 : env.linkByName l.netNs l.link.name = some lnk) :
    LoadSavedLeases env (LeaseFile.records [persistRecord l]) t r b =
      Except.ok [{ clientID := l.clientID, ack := l.ack, link := lnk,
                   renewalTime := l.renewalTime, rebindingTime := l.rebindingTime,
                   expireTime := l.expireTime, timeout := t, resendMax := r,
                   broadcast := b, k8sNamespace := l.k8sNamespace,
                   k8sPodName := l.k8sPodName, netNs := l.netNs }] := by
  simp [LoadSavedLeases, loadRecords, persistRecord, reloadLease, h1, h2]

/-- Witness for C6: the sample lease round-trips through the sample
environment. -/
theorem persist_load_roundTrip_witness :
    LoadSavedLeases sampleEnv (LeaseFile.records [persistRecord sampleLease]) 1 2 false =
      Except.ok [sampleLease] :=
  persist_load_roundTrip sampleEnv 1 2 false sampleLease { name := "eth0" }
    (by decide) (by decide)

/-- C5 counterexample: with a namespace that exists but a link that does
not resolve, `LoadSavedLeases` aborts with an error for the whole file —
the following record, loadable on its own (second conjunct), is not
returned — refuting the claim that such a failure is fatal for that
record only. -/
theorem LoadSavedLeases_fatal_counterexample :
    (LoadSavedLeases
        { nsExists := fun _ => true,
          linkByName := fun _ name => if name = "eth0" then some { name := "eth0" } else none }
        (LeaseFile.records [{ persistRecord sampleLease with LinkName := "gone" },
                            persistRecord sampleLease]) 1 2 false =
      Except.error ("couldn't look up link " ++ "gone")) ∧
    (LoadSavedLeases
        { nsExists := fun _ => true,
          linkByName := fun _ name => if name = "eth0" then some { name := "eth0" } else none }
        (LeaseFile.records [persistRecord sampleLease]) 1 2 false =
      Except.ok [{ sampleLease with timeout := 1, resendMax := 2, broadcast := false }]) := by
  exact ⟨rfl, rfl⟩

/-- C5 amended: a record whose namespace path no longer exists is
skipped and loading continues with the remaining records; a record whose
namespace exists but whose named link cannot be resolved is fatal for
the whole load — `LoadSavedLeases` returns an error and no records at
all. -/
theorem loadRecords_skip_and_fatal (env : NetEnv) (t r : Int) (b : Bool)
    (rec : PersistedLeased) (rest : List PersistedLeased) :
    (env.nsExists rec.NetNs = false →
      loadRecords env t r b (rec :: rest) = loadRecords env t r b rest) ∧
    (env.nsExists rec.NetNs = true →
      env.linkByName rec.NetNs rec.LinkName = none →
      loadRecords env t r b (rec :: rest) =
        Except.error ("couldn't look up link " ++ rec.LinkName)) := by
  constructor
  · intro h
    simp [loadRecords, h]
  · intro h1 h2
    simp [loadRecords, h1, h2]

/-- Witness for C5: both branches on concrete records — a dead namespace
is skipped, an unresolvable link aborts. -/
theorem loadRecords_skip_and_fatal_witness :
    (loadRecords { nsExists := fun _ => false, linkByName := fun _ _ => none } 1 2 false
        [persistRecord sampleLease] =
      loadRecords { nsExists := fun _ => false, linkByName := fun _ _ => none } 1 2 false []) ∧
    (loadRecords { nsExists := fun _ => true, linkByName := fun _ _ => none } 1 2 false
        [persistRecord sampleLease] =
      Except.error ("couldn't look up link " ++ (persistRecord sampleLease).LinkName)) :=
  ⟨(loadRecords_skip_and_fatal
      { nsExists := fun _ => false, linkByName := fun _ _ => none } 1 2 false
      (persistRecord sampleLease) []).1 rfl,
   (loadRecords_skip_and_fatal
      { nsExists := fun _ => true, linkByName := fun _ _ => none } 1 2 false
      (persistRecord sampleLease) []).2 rfl rfl⟩

/-- C1 counterexample: the insertion a successful `Allocate` performs via
`setLease` is not followed by a persist call before the mutex is
released — `setLease` unlocks without persisting, and the persist call
of `Allocate` comes only after that — refuting "every mutation is
followed by a persistence attempt before the mutex is released". -/
theorem setLease_persist_counterexample :
    persistBeforeUnlock (allocateTraceSuccess "c") = false ∧
    persistBeforeUnlock (setLeaseTrace "c") = false := by
  exact ⟨by decide, by decide⟩

/-- C1 amended: removal via `clearLease` persists before the mutex is
released; insertion via `setLease` does not — the persist of a
successful `Allocate` happens after `setLease` has released the mutex —
and after a successful `Allocate`, or a `Release` that found its lease,
whose file write succeeds, the persisted file holds exactly the records
of the in-memory registry. -/
theorem mutation_persist_discipline (d : DHCPState) (cid : String)
    (l : DHCPLease) (hl : lookupLease d.leases cid = some l) :
    persistBeforeUnlock (clearLeaseTrace cid) = true ∧
    persistBeforeUnlock (setLeaseTrace cid) = false ∧
    annotate false (allocateTraceSuccess cid) =
      [(Ev.acquire cid, false), (Ev.lock, false), (Ev.insert cid, true),
       (Ev.unlock, true), (Ev.persist, false)] ∧
    fileReflects (Allocate true true true (some l) true true cid d).1 ∧
    fileReflects (Release true true cid d).1 := by
  refine ⟨rfl, rfl, rfl, rfl, ?_⟩
  simp [Release, getLease, hl, clearLease, PersistActiveLeases, fileReflects]

/-- Witness for C1 (amended) on the sample state. -/
theorem mutation_persist_discipline_witness :
    fileReflects (Release true true "c1/net/eth0" sampleState).1 :=
  (mutation_persist_discipline sampleState "c1/net/eth0" sampleLease (by decide)).2.2.2.2

/-- C2 counterexample: the trace of a found `Release` does not remove the
lease before stopping it — `l.Stop()` precedes the `clearLease` removal —
refuting the claimed remove-then-stop-then-persist order. -/
theorem Release_order_counterexample :
    removeThenStopThenPersist (ReleaseTrace true "c") "c" = false := by
  decide

/-- C2 amended: for a `Release` whose client id is present, `stop()` is
called first, outside the mutex; the lease is then removed and the
registry persisted, both under the mutex, before it is released; the
registry afterwards has the key erased, and `Release` returns no error. -/
theorem Release_found_behavior (d : DHCPState) (cid : String) (l : DHCPLease)
    (w : Bool) (hl : lookupLease d.leases cid = some l) :
    (Release true w cid d).2 = none ∧
    (Release true w cid d).1.leases = eraseKey d.leases cid ∧
    ReleaseTrace true cid =
      [Ev.lock, Ev.unlock, Ev.stop cid, Ev.lock, Ev.erase cid, Ev.persist, Ev.unlock] ∧
    annotate false (ReleaseTrace true cid) =
      [(Ev.lock, false), (Ev.unlock, true), (Ev.stop cid, false),
       (Ev.lock, false), (Ev.erase cid, true), (Ev.persist, true), (Ev.unlock, true)] := by
  refine ⟨?_, ?_, rfl, rfl⟩ <;>
    cases w <;> simp [Release, getLease, hl, clearLease, PersistActiveLeases]

/-- Witness for C2 (amended) on the sample state. -/
theorem Release_found_behavior_witness :
    (Release true true "c1/net/eth0" sampleState).2 = none :=
  (Release_found_behavior sampleState "c1/net/eth0" sampleLease true (by decide)).1

/-- Folding `AddOption` over a packet ending in the End byte yields the
packet body, the option segments in fold order, and the End byte. -/
theorem foldl_addOption_eq (opts : List (Nat × Bytes)) (body : Bytes) :
    opts.foldl (fun p od => addOption p od.1 od.2) (body ++ [255]) =
      body ++ (opts.map optSeg).flatten ++ [255] := by
  induction opts generalizing body with
  | nil => simp
  | cons o rest ih =>
    have h : addOption (body ++ [255]) o.1 o.2 = (body ++ optSeg o) ++ [255] := by
      simp [addOption, optSeg]
    rw [List.foldl_cons, h, ih]
    simp

/-- Assembling permuted option sequences yields permuted packets. -/
theorem assemble_perm (body : Bytes) {o1 o2 : List (Nat × Bytes)}
    (h : o1.Perm o2) :
    (assemble (body ++ [255]) o1).Perm (assemble (body ++ [255]) o2) := by
  unfold assemble
  rw [foldl_addOption_eq, foldl_addOption_eq]
  have hj : ((o1.map optSeg).flatten).Perm ((o2.map optSeg).flatten) :=
    (h.map optSeg).flatten
  have hperm : (body ++ (o1.map optSeg).flatten ++ [255]).Perm
      (body ++ (o2.map optSeg).flatten ++ [255]) :=
    (hj.append_left body).append_right [255]
  unfold padToMinSize
  rw [hperm.length_eq]
  by_cases hc : (body ++ (o2.map optSeg).flatten ++ [255]).length < 272
  · rw [if_pos hc, if_pos hc]
    exact hperm.append_right _
  · rw [if_neg hc, if_neg hc]
    exact hperm

set_option maxRecDepth 4096 in
/-- C7 counterexample: the dictionary with entries 53 ↦ [1] and 61 ↦ [2]
can be iterated in two orders (the two lists are permutations of each
other, i.e. the same `dhcp4.Options` map), and the two assemblies differ
byte-for-byte — refuting byte-identity of repeated assembly, since Go
does not fix a map iteration order. -/
theorem assemble_order_counterexample :
    (([(53, [1]), (61, [2])] : List (Nat × Bytes)).Perm [(61, [2]), (53, [1])]) ∧
    assemble (List.replicate 240 0 ++ [255]) [(53, ([1] : Bytes)), (61, [2])] ≠
      assemble (List.replicate 240 0 ++ [255]) [(61, [2]), (53, [1])] :=
  ⟨List.Perm.swap (61, [2]) (53, [1]) [], by decide⟩

/-- C7 amended: packet assembly is a deterministic function of the
option sequence in iteration order — the same sequence assembles to
byte-identical packets — and two assemblies of the same dictionary in
different iteration orders agree after padding up to a permutation of
bytes, in particular in length. -/
theorem assemble_options_order (body : Bytes) (o1 o2 : List (Nat × Bytes))
    (h : o1.Perm o2) :
    (o1 = o2 →
      assemble (body ++ [255]) o1 = assemble (body ++ [255]) o2) ∧
    (assemble (body ++ [255]) o1).length = (assemble (body ++ [255]) o2).length ∧
    (assemble (body ++ [255]) o1).Perm (assemble (body ++ [255]) o2) := by
  have hp := assemble_perm body h
  exact ⟨fun he => by rw [he], hp.length_eq, hp⟩

/-- Witness for C7 (amended): the two iteration orders of the
counterexample dictionary assemble to packets of equal length. -/
theorem assemble_options_order_witness :
    (assemble (List.replicate 240 0 ++ [255]) [(53, ([1] : Bytes)), (61, [2])]).length =
      (assemble (List.replicate 240 0 ++ [255]) [(61, [2]), (53, [1])]).length :=
  (assemble_options_order (List.replicate 240 0) [(53, [1]), (61, [2])]
    [(61, [2]), (53, [1])] (List.Perm.swap (61, [2]) (53, [1]) [])).2.1

/-- C8: `DhcpRequest` returns success exactly when all four transport
phases succeed and the reply's DHCP message type is ACK; any transport
failure returns success `false` with a non-nil error, and a reply whose
message type is not ACK returns success `false` with a nil error. -/
theorem DhcpRequest_spec (c : Client) (opts : List (Nat × Bytes)) :
    ((DhcpRequest c opts).1 = true ↔
      allPhasesOk c opts = true ∧ c.parseMessageType (ackOf c opts) = ACK) ∧
    (allPhasesOk c opts = false →
      (DhcpRequest c opts).1 = false ∧ ((DhcpRequest c opts).2.2).isSome = true) ∧
    (allPhasesOk c opts = true → c.parseMessageType (ackOf c opts) ≠ ACK →
      DhcpRequest c opts = (false, ackOf c opts, none)) ∧
    (allPhasesOk c opts = true → c.parseMessageType (ackOf c opts) = ACK →
      DhcpRequest c opts = (true, ackOf c opts, none)) := by
  simp only [DhcpRequest, DhcpSendDiscoverPacket, DhcpSendRequest, allPhasesOk,
    ackOf, requestOf, offerOf, discoveryOf]
  cases h1 : c.sendPacket (assemble c.discoverPacket opts) with
  | some e => simp [h1]
  | none =>
    cases h2 : c.getOffer (assemble c.discoverPacket opts) with
    | mk op e2 =>
      cases e2 with
      | some e => simp [h1, h2]
      | none =>
        cases h3 : c.sendPacket (assemble (c.requestPacket op) opts) with
        | some e => simp [h1, h2, h3]
        | none =>
          cases h4 : c.getAcknowledgement (assemble (c.requestPacket op) opts) with
          | mk ack e4 =>
            cases e4 with
            | some e => simp [h1, h2, h3, h4]
            | none =>
              by_cases h5 : c.parseMessageType ack = ACK
              · simp [h1, h2, h3, h4, h5]
              · simp [h1, h2, h3, h4, h5]

/-- Witness for C8: a client whose phases all succeed and whose reply
parses as ACK makes `DhcpRequest` succeed. -/
theorem DhcpRequest_spec_witness :
    (DhcpRequest
      { discoverPacket := [255], requestPacket := fun _ => [255],
        sendPacket := fun _ => none, getOffer := fun p => (p, none),
        getAcknowledgement := fun p => (p, none),
        parseMessageType := fun _ => 5 } []).1 = true :=
  (DhcpRequest_spec
    { discoverPacket := [255], requestPacket := fun _ => [255],
      sendPacket := fun _ => none, getOffer := fun p => (p, none),
      getAcknowledgement := fun p => (p, none),
      parseMessageType := fun _ => 5 } []).1.mpr ⟨rfl, rfl⟩

end CniDhcp
